import Mathlib

/-
Verification of the rose message-relay core.

This file gives a shallow embedding of the message-queue session store
(`messagequeue/app/persistence/session_repository.py`), the queue service
(`messagequeue/app/services/queue_service.py`), the HTTP API layer
(`messagequeue/app/api/messages.py`), the heartbeat dispatch loop
(`heartbeat/app/loop.py` with `heartbeat/app/clients.py`), and the Discord
relay wait loop (`discordgateway/app/discord/bot.py`), together with
theorems about the relay's documented behaviour.

Modelling conventions:
- The SQLite sessions/messages tables are modelled as an association list
  `Store := List (String × Session)`; a session row carries its participants,
  its `has_unseen` flag, and its message rows inline.  `INSERT` appends a row,
  `UPDATE ... WHERE id = ?` maps over the rows with a matching key, and the
  `ORDER BY ordinal ASC` of `get_messages` is an explicit insertion sort on
  the ordinal column.
- The participants JSON column is modelled as the decoded participant list
  (serialisation round-trips and is never inspected as raw text by the core).
- Python `str.strip()` is modelled by `pyStrip`; fresh UUIDs are passed in as
  explicit arguments; exceptions are `Except`/`Option` results.
-/

namespace Rose

/-- One participant in a session: display name and agent flag
(`messagequeue/app/models/message.py`, class Participant). -/
structure Participant where
  name : String
  isAgent : Bool
deriving DecidableEq

/-- One stored message row: sender, content, and the store-assigned ordinal
(`messages` table in `messagequeue/app/persistence/database.py`). -/
structure Message where
  user : String
  message : String
  ordinal : Nat
deriving DecidableEq

/-- One session row: participants JSON (decoded), `has_unseen` flag, and the
session's message rows in insertion order (`sessions` table). -/
structure Session where
  participants : List Participant
  has_unseen : Bool
  messages : List Message
deriving DecidableEq

/-- The database: an association list of session id to session row. -/
abbrev Store := List (String × Session)

/-- Look up the session row with the given id (first match). -/
def Store.find : Store → String → Option Session
  | [], _ => none
  | (i, s) :: rest, sid => if i = sid then some s else Store.find rest sid

/-- `UPDATE sessions SET ... WHERE id = sid`: apply `f` to every row whose key
is `sid`, leaving the other rows untouched. -/
def Store.setSession : Store → String → (Session → Session) → Store
  | [], _, _ => []
  | (i, s) :: rest, sid, f =>
    if i = sid then (i, f s) :: Store.setSession rest sid f
    else (i, s) :: Store.setSession rest sid f

/-- Models Python `str.strip()`: drop leading and trailing whitespace. -/
def pyStrip (s : String) : String :=
  String.mk (((s.data.dropWhile Char.isWhitespace).reverse.dropWhile Char.isWhitespace).reverse)

/-- Insert a message row into a list kept ascending by ordinal. -/
def insertByOrdinal (m : Message) : List Message → List Message
  | [] => [m]
  | x :: xs => if m.ordinal ≤ x.ordinal then m :: x :: xs else x :: insertByOrdinal m xs

/-- `ORDER BY ordinal ASC`: sort the stored message rows by ordinal. -/
def orderByOrdinal : List Message → List Message
  | [] => []
  | x :: xs => insertByOrdinal x (orderByOrdinal xs)

/-- `SELECT COALESCE(MAX(ordinal), 0) FROM messages WHERE session_id = ?`:
the maximum ordinal among the session's messages, 0 when there are none. -/
def maxOrdinal (ms : List Message) : Nat :=
  ms.foldl (fun acc m => Nat.max acc m.ordinal) 0

/-! ## SessionRepository (`messagequeue/app/persistence/session_repository.py`) -/

/-- `SessionRepository.session_exists`. -/
def session_exists (st : Store) (sid : String) : Bool :=
  (Store.find st sid).isSome

/-- `SessionRepository.create_session`: `INSERT INTO sessions (id, has_unseen,
participants) VALUES (?, 0, ?)`.  Fails (primary-key violation) if the id
already exists, modelled as `none`. -/
def repo_create_session (st : Store) (sid : String) (participants : List Participant) :
    Option Store :=
  if session_exists st sid then none
  else some (st ++ [(sid, ⟨participants, false, []⟩)])

/-- `SessionRepository.get_participants_json` (decoded). -/
def get_participants (st : Store) (sid : String) : Option (List Participant) :=
  (Store.find st sid).map Session.participants

/-- `SessionRepository.append_message`: if the session exists, insert a message
row with ordinal `COALESCE(MAX(ordinal), 0) + 1` and then set `has_unseen = 1`;
returns `false` (store unchanged) when the session does not exist. -/
def append_message (st : Store) (sid user msg : String) : Bool × Store :=
  if ¬ session_exists st sid then (false, st)
  else
    let ordinal := (match Store.find st sid with
      | some s => maxOrdinal s.messages
      | none => 0) + 1
    let st1 := Store.setSession st sid
      (fun s => { s with messages := s.messages ++ [⟨user, msg, ordinal⟩] })
    let st2 := Store.setSession st1 sid (fun s => { s with has_unseen := true })
    (true, st2)

/-- `SessionRepository.get_has_unseen`: `false` when the row is missing. -/
def get_has_unseen (st : Store) (sid : String) : Bool :=
  match Store.find st sid with
  | none => false
  | some s => s.has_unseen

/-- `SessionRepository.clear_has_unseen`: `UPDATE sessions SET has_unseen = 0
WHERE id = ?` — unconditionally resets the flag. -/
def clear_has_unseen (st : Store) (sid : String) : Store :=
  Store.setSession st sid (fun s => { s with has_unseen := false })

/-- `SessionRepository.get_messages`: (user, message) pairs ordered by ordinal. -/
def get_messages (st : Store) (sid : String) : List (String × String) :=
  match Store.find st sid with
  | none => []
  | some s => (orderByOrdinal s.messages).map (fun m => (m.user, m.message))

/-- `SessionRepository.get_messages_and_clear_unseen`: read the messages, then
clear the flag.  The two steps are separate statements (and separate SQLite
transactions at the API layer); the pair below is the sequential composition. -/
def get_messages_and_clear_unseen (st : Store) (sid : String) :
    List (String × String) × Store :=
  (get_messages st sid, clear_has_unseen st sid)

/-- `SessionRepository.list_session_ids_with_updates`: ids with `has_unseen = 1`
(the `ORDER BY id ASC` is dropped; only membership matters here). -/
def list_session_ids_with_updates (st : Store) : List String :=
  (st.filter (fun e => e.2.has_unseen)).map (fun e => e.1)

/-! ## QueueService (`messagequeue/app/services/queue_service.py`) -/

/-- `SessionNotFoundError`. -/
inductive QueueError where
  | sessionNotFound
deriving DecidableEq

/-- `QueueService.create_session`: if an explicit id is given and exists,
return it with `created = false` and the store untouched; otherwise create a
session under the explicit id or the fresh UUID `freshId`.  `none` models the
uncaught sqlite error of a colliding insert. -/
def svc_create_session (st : Store) (participants : List Participant)
    (session_id : Option String) (freshId : String) :
    Option ((String × Bool) × Store) :=
  match session_id with
  | some sid =>
    if session_exists st sid then some ((sid, false), st)
    else
      match repo_create_session st sid participants with
      | some st1 => some ((sid, true), st1)
      | none => none
  | none =>
    match repo_create_session st freshId participants with
    | some st1 => some ((freshId, true), st1)
    | none => none

/-- `QueueService.send_message`: append or raise `SessionNotFoundError`. -/
def send_message (st : Store) (sid user msg : String) : Except QueueError Store :=
  if (append_message st sid user msg).1 then .ok (append_message st sid user msg).2
  else .error .sessionNotFound

/-- `QueueService.has_unseen`: pure read. -/
def svc_has_unseen (st : Store) (sid : String) : Bool :=
  get_has_unseen st sid

/-- `QueueService.get_history`: participants plus messages, optionally clearing
the unseen flag; raises `SessionNotFoundError` when the session is missing. -/
def get_history (st : Store) (sid : String) (clear_unseen : Bool) :
    Except QueueError ((List Participant × List (String × String)) × Store) :=
  match get_participants st sid with
  | none => .error .sessionNotFound
  | some participants =>
    if clear_unseen then
      let r := get_messages_and_clear_unseen st sid
      .ok ((participants, r.1), r.2)
    else
      .ok ((participants, get_messages st sid), st)

/-! ## API layer (`messagequeue/app/api/messages.py` and pydantic models) -/

/-- API-level error outcomes: pydantic 422, HTTP 404, or a 500 from an
uncaught store error. -/
inductive ApiError where
  | validationError
  | notFound
  | internalError
deriving DecidableEq

/-- `POST /sessions`: pydantic `CreateSessionRequest` requires exactly two
participants (`min_length=2, max_length=2`) before the handler runs; then
`QueueService.create_session`.  The store component of the result is the
post-state (unchanged on error). -/
def api_create_session (st : Store) (participants : List Participant)
    (sessionId : Option String) (freshId : String) :
    Except ApiError (String × Bool) × Store :=
  if participants.length = 2 then
    match svc_create_session st participants sessionId freshId with
    | some (r, st1) => (.ok r, st1)
    | none => (.error .internalError, st)
  else (.error .validationError, st)

/-- `GET /poll?sessionId=`: `has_unseen = false` for a missing or blank id,
otherwise the stored flag for the stripped id; no side effects (the store is
not part of the result type). -/
def api_poll (sessionId : Option String) (st : Store) : Bool :=
  match sessionId with
  | none => false
  | some sid =>
    if pyStrip sid = "" then false
    else svc_has_unseen st (pyStrip sid)

/-- `GET /sessions/{id}/history?clear_unseen=`: 404 on a missing session.
The query parameter defaults to `true` on the server. -/
def api_get_history (st : Store) (session_id : String) (clear_unseen : Bool) :
    Except ApiError (List Participant × List (String × String)) × Store :=
  match get_history st session_id clear_unseen with
  | .ok (r, st1) => (.ok r, st1)
  | .error _ => (.error .notFound, st)

/-! ## Heartbeat (`heartbeat/app/config.py`, `clients.py`, `loop.py`) -/

/-- `HEARTBEAT_USER` from `heartbeat/app/config.py`. -/
def HEARTBEAT_USER : String := "RoseHeartBeat"

/-- `HEARTBEAT_IS_AGENT` from `heartbeat/app/config.py`. -/
def HEARTBEAT_IS_AGENT : Bool := false

/-- `ServiceClient.task_session_id`: the stable session id for a ticket. -/
def task_session_id (ticket_id : String) : String :=
  "RoseHeartbeat-task-" ++ ticket_id

/-- `ServiceClient.heartbeat_participants`: dispatcher plus assignee. -/
def heartbeat_participants (assignee : String) : List Participant :=
  [⟨HEARTBEAT_USER, HEARTBEAT_IS_AGENT⟩, ⟨assignee, true⟩]

/-- `ServiceClient.get_session_history`: issues `GET /sessions/{id}/history`
with no `clear_unseen` query parameter, so the server applies its default
`clear_unseen = true`. -/
def client_get_session_history (st : Store) (session_id : String) :
    Except ApiError (List Participant × List (String × String)) × Store :=
  api_get_history st session_id true

/-- A ticket record as consumed by `HeartbeatLoop._dispatch_ticket`. -/
structure Ticket where
  id : String
  assignee : String
  status : String
  title : String
  instructions : String
deriving DecidableEq

/-- The announcement body composed by `HeartbeatLoop._dispatch_ticket`:
`f"Task ({status}): {title}\n\n{instructions}"`. -/
def announcement_body (t : Ticket) : String :=
  "Task (" ++ t.status ++ "): " ++ t.title ++ "\n\n" ++ t.instructions

/-- `HeartbeatLoop._dispatch_ticket`: skip blank assignees; get-or-create the
deterministic task session; read its history through the client (which clears
the unseen flag, see `client_get_session_history`); if any message exists do
nothing further, otherwise append the announcement from the dispatcher.
Caught exceptions (create/history/send failures) return the store as left by
the last completed call.  `freshId` feeds the UUID path of session creation,
which this flow never takes since an explicit id is always supplied. -/
def dispatch_ticket (t : Ticket) (st : Store) (freshId : String) : Store :=
  let assignee := pyStrip t.assignee
  if assignee = "" then st
  else
    let sid := task_session_id t.id
    let participants := heartbeat_participants assignee
    match api_create_session st participants (some sid) freshId with
    | (.error _, st0) => st0
    | (.ok _, st1) =>
      match client_get_session_history st1 sid with
      | (.error _, st1e) => st1e
      | (.ok (_, messages), st2) =>
        if ¬ messages.isEmpty then st2
        else
          let body := announcement_body t
          match send_message st2 sid HEARTBEAT_USER body with
          | .ok st3 => st3
          | .error _ => st2

/-- The responder-selection logic of `HeartbeatLoop._process_session_update`
(lines 68–92): filter the agent participants; return without selecting when
there are no agents or no messages; with exactly two agents pick the first
whose name differs from the last message's sender (returning without selecting
when there is none); otherwise answer as the single agent.  A `none` result
means the step returns before resolving an agent, invoking inference, or
appending any reply. -/
def select_responder (participants : List Participant)
    (messages : List (String × String)) : Option String :=
  let agent_participants := participants.filter (fun p => p.isAgent)
  if agent_participants.isEmpty then none
  else
    match messages.getLast? with
    | none => none
    | some last =>
      let last_sender := last.1
      if agent_participants.length = 2 then
        match agent_participants.find? (fun p => p.name != last_sender) with
        | none => none
        | some other_agent => some other_agent.name
      else
        match agent_participants.head? with
        | some p => some p.name
        | none => none

/-! ## Discord relay (`discordgateway/app/discord/bot.py`) -/

/-- `HISTORY_POLL_INTERVAL_SECONDS` (2.0 in the source; the value is an exact
float so the integer model is faithful). -/
def HISTORY_POLL_INTERVAL_SECONDS : Nat := 2

/-- `HISTORY_POLL_TIMEOUT_SECONDS` (300.0 in the source). -/
def HISTORY_POLL_TIMEOUT_SECONDS : Nat := 300

/-- Outcome of `GatewayBot._wait_for_agent_reply`: either the delivered reply
text, or the timeout notice path (the method returns `None` after sending the
notice). -/
inductive WaitResult where
  | delivered (content : String)
  | timedOut
deriving DecidableEq

/-- The test `messages and messages[-1]["user"] == agent_name` applied to one
poll's history snapshot. -/
def isAgentReply (messages : List (String × String)) (agent_name : String) : Bool :=
  match messages.getLast? with
  | some last => last.1 == agent_name
  | none => false

/-- The body of `_wait_for_agent_reply`'s while loop.  `hist k` is the history
returned by the non-clearing poll performed at elapsed time
`k * HISTORY_POLL_INTERVAL_SECONDS`; `fuel` is the number of loop iterations
still allowed by the `elapsed < HISTORY_POLL_TIMEOUT_SECONDS` guard.  The
result carries the outcome, the number of `clear_unseen = true` reads
performed, and the number of polls performed. -/
def wait_aux (hist : Nat → List (String × String)) (agent_name : String) :
    Nat → Nat → WaitResult × Nat × Nat
  | _, 0 => (.timedOut, 0, 0)
  | k, fuel + 1 =>
    let messages := hist k
    match messages.getLast? with
    | some last =>
      if last.1 = agent_name then (.delivered last.2, 1, 1)
      else
        let r := wait_aux hist agent_name (k + 1) fuel
        (r.1, r.2.1, r.2.2 + 1)
    | none =>
      let r := wait_aux hist agent_name (k + 1) fuel
      (r.1, r.2.1, r.2.2 + 1)

/-- Harness for C9: run a sequence of `appendMessage` calls (sender, content)
against one session, left to right. -/
def appendAll (st : Store) (sid : String) (ws : List (String × String)) : Store :=
  ws.foldl (fun s w => (append_message s sid w.1 w.2).2) st

/-- `GatewayBot._wait_for_agent_reply`: `elapsed` runs 0, 2, 4, … while
`elapsed < 300`, so the loop performs at most 300 / 2 = 150 polls; on the
first poll whose last message is from the agent it performs exactly one more
read with `clear_unseen = true` and returns that message's content; otherwise
it sends the timeout notice. -/
def wait_for_agent_reply (hist : Nat → List (String × String))
    (agent_name : String) : WaitResult × Nat × Nat :=
  wait_aux hist agent_name 0
    (HISTORY_POLL_TIMEOUT_SECONDS / HISTORY_POLL_INTERVAL_SECONDS)

/-! ## Store lemmas -/

theorem find_setSession_self (st : Store) (sid : String) (f : Session → Session) :
    Store.find (Store.setSession st sid f) sid = (Store.find st sid).map f := by
  induction st with
  | nil => rfl
  | cons e rest ih =>
    obtain ⟨i, s⟩ := e
    by_cases h : i = sid
    · subst h
      simp [Store.setSession, Store.find]
    · simp [Store.setSession, Store.find, h, ih]

theorem find_setSession_ne (st : Store) (sid sid' : String) (f : Session → Session)
    (h : sid' ≠ sid) :
    Store.find (Store.setSession st sid f) sid' = Store.find st sid' := by
  induction st with
  | nil => rfl
  | cons e rest ih =>
    obtain ⟨i, s⟩ := e
    by_cases he : i = sid
    · subst he
      have hne : i ≠ sid' := fun hc => h hc.symm
      simp [Store.setSession, Store.find, hne, ih]
    · by_cases he' : i = sid'
      · subst he'
        simp [Store.setSession, Store.find, he]
      · simp [Store.setSession, Store.find, he, he', ih]

theorem find_append_of_some (st l : Store) (sid : String) (s : Session)
    (h : Store.find st sid = some s) :
    Store.find (st ++ l) sid = some s := by
  induction st with
  | nil => simp [Store.find] at h
  | cons e rest ih =>
    obtain ⟨i, s'⟩ := e
    by_cases he : i = sid
    · simp [Store.find, he] at h ⊢
      exact h
    · simp [Store.find, he] at h ⊢
      exact ih h

theorem find_append_of_none (st l : Store) (sid : String)
    (h : Store.find st sid = none) :
    Store.find (st ++ l) sid = Store.find l sid := by
  induction st with
  | nil => rfl
  | cons e rest ih =>
    obtain ⟨i, s'⟩ := e
    by_cases he : i = sid
    · simp [Store.find, he] at h
    · simp [Store.find, he] at h ⊢
      exact ih h

theorem insertByOrdinal_length (m : Message) (ms : List Message) :
    (insertByOrdinal m ms).length = ms.length + 1 := by
  induction ms with
  | nil => rfl
  | cons x xs ih =>
    by_cases h : m.ordinal ≤ x.ordinal
    · simp [insertByOrdinal, h]
    · simp [insertByOrdinal, h, ih]

theorem orderByOrdinal_length (ms : List Message) :
    (orderByOrdinal ms).length = ms.length := by
  induction ms with
  | nil => rfl
  | cons x xs ih => simp [orderByOrdinal, insertByOrdinal_length, ih]

/-- Characterisation of a successful append: the session gains one message
row with ordinal `max + 1` and its unseen flag is set. -/
theorem append_message_found (st : Store) (sid u m : String) (s : Session)
    (h : Store.find st sid = some s) :
    append_message st sid u m =
      (true, Store.setSession
        (Store.setSession st sid
          (fun s' => { s' with
            messages := s'.messages ++ [⟨u, m, maxOrdinal s.messages + 1⟩] }))
        sid (fun s' => { s' with has_unseen := true })) := by
  have hex : session_exists st sid = true := by
    simp [session_exists, h]
  simp [append_message, hex, h]

theorem append_message_find_self (st : Store) (sid u m : String) (s : Session)
    (h : Store.find st sid = some s) :
    Store.find (append_message st sid u m).2 sid =
      some ⟨s.participants, true, s.messages ++ [⟨u, m, maxOrdinal s.messages + 1⟩]⟩ := by
  rw [append_message_found st sid u m s h]
  simp [find_setSession_self, h]

theorem append_message_find_ne (st : Store) (sid sid' u m : String)
    (h : sid' ≠ sid) :
    Store.find (append_message st sid u m).2 sid' = Store.find st sid' := by
  by_cases hex : session_exists st sid = true
  · obtain ⟨s, hs⟩ : ∃ s, Store.find st sid = some s := by
      simpa [session_exists, Option.isSome_iff_exists] using hex
    rw [append_message_found st sid u m s hs]
    rw [find_setSession_ne _ _ _ _ h, find_setSession_ne _ _ _ _ h]
  · simp [append_message, hex]

theorem get_has_unseen_clear (st : Store) (sid : String) :
    get_has_unseen (clear_has_unseen st sid) sid = false := by
  unfold get_has_unseen clear_has_unseen
  rw [find_setSession_self]
  cases Store.find st sid <;> simp

theorem clear_find_self (st : Store) (sid : String) (s : Session)
    (h : Store.find st sid = some s) :
    Store.find (clear_has_unseen st sid) sid = some ⟨s.participants, false, s.messages⟩ := by
  unfold clear_has_unseen
  rw [find_setSession_self, h]
  rfl

theorem foldl_max_range (acc n : Nat) :
    List.foldl Nat.max acc (List.range' 1 n) = Nat.max acc n := by
  induction n generalizing acc with
  | zero => simp
  | succ n ih =>
    have hc := @List.range'_concat 1 1 n
    simp only [Nat.one_mul] at hc
    rw [hc, List.foldl_append, ih]
    simp only [List.foldl_cons, List.foldl_nil]
    rw [Nat.add_comm 1 n]
    simp [Nat.max_assoc, Nat.max_eq_right (Nat.le_succ n)]

/-- When a session's ordinals are exactly 1..n, the stored maximum is n. -/
theorem maxOrdinal_eq_length (ms : List Message)
    (h : ms.map Message.ordinal = List.range' 1 ms.length) :
    maxOrdinal ms = ms.length := by
  unfold maxOrdinal
  have hm : List.foldl (fun acc m => Nat.max acc m.ordinal) 0 ms
      = List.foldl Nat.max 0 (ms.map Message.ordinal) := by
    rw [List.foldl_map]
  rw [hm, h, foldl_max_range]
  simp

theorem range'_snoc (n : Nat) :
    List.range' 1 n ++ [n + 1] = List.range' 1 (n + 1) := by
  have hc := @List.range'_concat 1 1 n
  simp only [Nat.one_mul] at hc
  rw [hc, Nat.add_comm 1 n]

theorem clear_preserves_messages (st : Store) (sid sid' : String) :
    (Store.find (clear_has_unseen st sid) sid').map Session.messages
      = (Store.find st sid').map Session.messages := by
  by_cases he : sid' = sid
  · subst he
    rw [clear_has_unseen, find_setSession_self]
    cases Store.find st sid' <;> rfl
  · rw [clear_has_unseen, find_setSession_ne _ _ _ _ he]

theorem clear_preserves_participants (st : Store) (sid sid' : String) :
    (Store.find (clear_has_unseen st sid) sid').map Session.participants
      = (Store.find st sid').map Session.participants := by
  by_cases he : sid' = sid
  · subst he
    rw [clear_has_unseen, find_setSession_self]
    cases Store.find st sid' <;> rfl
  · rw [clear_has_unseen, find_setSession_ne _ _ _ _ he]

/-- The history read through the heartbeat client on an existing session:
participants and messages come back, and the store comes back with the
session's unseen flag cleared. -/
theorem client_history_on_found (st : Store) (sid : String) (s : Session)
    (h : Store.find st sid = some s) :
    client_get_session_history st sid
      = (.ok (s.participants, get_messages st sid), clear_has_unseen st sid) := by
  have hgp : get_participants st sid = some s.participants := by
    simp [get_participants, h]
  simp [client_get_session_history, api_get_history, get_history, hgp,
    get_messages_and_clear_unseen]

/-- Session creation never touches an existing session row. -/
theorem svc_create_preserves_rows (st : Store) (ps : List Participant)
    (osid : Option String) (fresh : String) (r : String × Bool) (st' : Store)
    (h : svc_create_session st ps osid fresh = some (r, st'))
    (sid : String) (s : Session) (hs : Store.find st sid = some s) :
    Store.find st' sid = some s := by
  unfold svc_create_session at h
  cases osid with
  | some sid0 =>
    by_cases hex : session_exists st sid0 = true
    · simp only [hex, if_true, Option.some.injEq, Prod.mk.injEq] at h
      rw [← h.2]
      exact hs
    · simp only [hex] at h
      unfold repo_create_session at h
      simp only [hex, Bool.false_eq_true, if_false, Option.some.injEq,
        Prod.mk.injEq] at h
      rw [← h.2]
      exact find_append_of_some st _ sid s hs
  | none =>
    unfold repo_create_session at h
    by_cases hex : session_exists st fresh = true
    · simp [hex] at h
    · simp only [hex, Bool.false_eq_true, if_false, Option.some.injEq,
        Prod.mk.injEq] at h
      rw [← h.2]
      exact find_append_of_some st _ sid s hs

/-- A history read (clearing or not) never changes any session's messages. -/
theorem get_history_preserves_messages (st : Store) (sid : String) (c : Bool)
    (r : List Participant × List (String × String)) (st' : Store)
    (h : get_history st sid c = .ok (r, st')) (sid' : String) :
    (Store.find st' sid').map Session.messages
      = (Store.find st sid').map Session.messages := by
  unfold get_history at h
  cases hp : get_participants st sid with
  | none => rw [hp] at h; exact absurd h (by simp)
  | some ps =>
    rw [hp] at h
    cases c with
    | true =>
      simp only [if_true, get_messages_and_clear_unseen, Except.ok.injEq,
        Prod.mk.injEq] at h
      rw [← h.2]
      exact clear_preserves_messages st sid sid'
    | false =>
      simp only [Bool.false_eq_true, if_false, Except.ok.injEq, Prod.mk.injEq] at h
      rw [← h.2]

/-- Invariant of successive appends: ordinals stay exactly 1..n, contents
accumulate in append order, participants are untouched. -/
theorem appendAll_inv (sid : String) :
    ∀ (ws : List (String × String)) (st : Store) (s : Session),
      Store.find st sid = some s →
      s.messages.map Message.ordinal = List.range' 1 s.messages.length →
      ∃ s', Store.find (appendAll st sid ws) sid = some s' ∧
        s'.participants = s.participants ∧
        s'.messages.map Message.ordinal = List.range' 1 s'.messages.length ∧
        s'.messages.length = s.messages.length + ws.length ∧
        s'.messages.map (fun mm => (mm.user, mm.message))
          = s.messages.map (fun mm => (mm.user, mm.message)) ++ ws := by
  intro ws
  induction ws with
  | nil =>
    intro st s h hinv
    exact ⟨s, by simpa [appendAll] using h, rfl, hinv, by simp, by simp⟩
  | cons w ws ih =>
    intro st s h hinv
    have hmax : maxOrdinal s.messages = s.messages.length :=
      maxOrdinal_eq_length s.messages hinv
    have hfind1 := append_message_find_self st sid w.1 w.2 s h
    rw [hmax] at hfind1
    have hinv1 :
        (s.messages ++ [Message.mk w.1 w.2 (s.messages.length + 1)]).map Message.ordinal
          = List.range' 1
              (s.messages ++ [Message.mk w.1 w.2 (s.messages.length + 1)]).length := by
      rw [List.map_append, hinv]
      simp only [List.map_cons, List.map_nil, List.length_append, List.length_cons,
        List.length_nil]
      simpa using range'_snoc s.messages.length
    obtain ⟨s', h1, h2, h3, h4, h5⟩ :=
      ih (append_message st sid w.1 w.2).2
        ⟨s.participants, true, s.messages ++ [⟨w.1, w.2, s.messages.length + 1⟩]⟩
        hfind1 hinv1
    refine ⟨s', ?_, by simpa using h2, h3, ?_, ?_⟩
    · simpa [appendAll, List.foldl_cons] using h1
    · rw [h4]
      simp
      omega
    · rw [h5]
      simp

/-- First dispatch of a ticket whose task session does not exist yet: the
session is created and holds exactly the announcement, with the flag set by
the append. -/
theorem dispatch_first (t : Ticket) (st : Store) (u : String)
    (hass : ¬ pyStrip t.assignee = "")
    (habsent : Store.find st (task_session_id t.id) = none) :
    Store.find (dispatch_ticket t st u) (task_session_id t.id)
      = some ⟨heartbeat_participants (pyStrip t.assignee), true,
          [⟨HEARTBEAT_USER, announcement_body t, 1⟩]⟩ := by
  have hex : session_exists st (task_session_id t.id) = false := by
    simp [session_exists, habsent]
  have e1 : api_create_session st (heartbeat_participants (pyStrip t.assignee))
      (some (task_session_id t.id)) u
      = (.ok (task_session_id t.id, true),
         st ++ [(task_session_id t.id,
           ⟨heartbeat_participants (pyStrip t.assignee), false, []⟩)]) := by
    simp [api_create_session, svc_create_session, hex, repo_create_session,
      heartbeat_participants]
  have hfind1 : Store.find
      (st ++ [(task_session_id t.id,
        ⟨heartbeat_participants (pyStrip t.assignee), false, []⟩)])
      (task_session_id t.id)
      = some ⟨heartbeat_participants (pyStrip t.assignee), false, []⟩ := by
    rw [find_append_of_none st _ _ habsent]
    simp [Store.find]
  have e2 : client_get_session_history
      (st ++ [(task_session_id t.id,
        ⟨heartbeat_participants (pyStrip t.assignee), false, []⟩)])
      (task_session_id t.id)
      = (.ok (heartbeat_participants (pyStrip t.assignee), []),
         clear_has_unseen
           (st ++ [(task_session_id t.id,
             ⟨heartbeat_participants (pyStrip t.assignee), false, []⟩)])
           (task_session_id t.id)) := by
    rw [client_history_on_found _ _ _ hfind1]
    simp [get_messages, hfind1, orderByOrdinal]
  have hfind2 : Store.find
      (clear_has_unseen
        (st ++ [(task_session_id t.id,
          ⟨heartbeat_participants (pyStrip t.assignee), false, []⟩)])
        (task_session_id t.id))
      (task_session_id t.id)
      = some ⟨heartbeat_participants (pyStrip t.assignee), false, []⟩ :=
    clear_find_self _ _ _ hfind1
  unfold dispatch_ticket
  rw [if_neg hass]
  simp only [e1, e2, List.isEmpty_nil, not_true_eq_false, if_false, ite_false]
  rw [send_message, append_message_found _ _ _ _ _ hfind2]
  simp only [if_true]
  rw [find_setSession_self, find_setSession_self, hfind2]
  rfl

/-- Dispatch of a ticket whose task session already has messages: the create
is an idempotent hit, the history read clears the flag, and nothing is
appended — participants and messages are unchanged. -/
theorem dispatch_nonempty (t : Ticket) (st : Store) (u : String) (s : Session)
    (hass : ¬ pyStrip t.assignee = "")
    (hfind : Store.find st (task_session_id t.id) = some s)
    (hne : s.messages ≠ []) :
    Store.find (dispatch_ticket t st u) (task_session_id t.id)
      = some ⟨s.participants, false, s.messages⟩ := by
  have hex : session_exists st (task_session_id t.id) = true := by
    simp [session_exists, hfind]
  have e1 : api_create_session st (heartbeat_participants (pyStrip t.assignee))
      (some (task_session_id t.id)) u
      = (.ok (task_session_id t.id, false), st) := by
    simp [api_create_session, svc_create_session, hex, heartbeat_participants]
  have e2 : client_get_session_history st (task_session_id t.id)
      = (.ok (s.participants, get_messages st (task_session_id t.id)),
         clear_has_unseen st (task_session_id t.id)) :=
    client_history_on_found _ _ _ hfind
  have hmne : (get_messages st (task_session_id t.id)).isEmpty = false := by
    have hlen : (get_messages st (task_session_id t.id)).length = s.messages.length := by
      simp [get_messages, hfind, orderByOrdinal_length]
    cases hgm : get_messages st (task_session_id t.id) with
    | nil =>
      rw [hgm] at hlen
      exact absurd (List.length_eq_zero.mp hlen.symm) hne
    | cons x xs => rfl
  unfold dispatch_ticket
  rw [if_neg hass]
  simp only [e1, e2, hmne, Bool.false_eq_true, not_false_eq_true, if_true, ite_true]
  exact clear_find_self _ _ _ hfind

/-- If the first agent-authored last message shows up on poll `k + i` (and on
no earlier poll from `k`), the wait loop delivers that message's content with
exactly one clearing read, after `i + 1` polls. -/
theorem wait_aux_delivered (hist : Nat → List (String × String)) (agent : String) :
    ∀ (fuel k i : Nat), i < fuel →
      (∀ j, j < i → isAgentReply (hist (k + j)) agent = false) →
      isAgentReply (hist (k + i)) agent = true →
      ∃ last, (hist (k + i)).getLast? = some last ∧
        wait_aux hist agent k fuel = (.delivered last.2, 1, i + 1) := by
  intro fuel
  induction fuel with
  | zero =>
    intro k i hi
    exact absurd hi (Nat.not_lt_zero i)
  | succ fuel ih =>
    intro k i hi hprev hsucc
    cases i with
    | zero =>
      rw [Nat.add_zero] at hsucc
      unfold isAgentReply at hsucc
      cases hl : (hist k).getLast? with
      | none =>
        rw [hl] at hsucc
        exact absurd hsucc (by simp)
      | some last =>
        rw [hl] at hsucc
        have heq : last.1 = agent := by simpa using hsucc
        refine ⟨last, by simpa [Nat.add_zero] using hl, ?_⟩
        simp [wait_aux, hl, heq]
    | succ i =>
      have h0 := hprev 0 (Nat.succ_pos i)
      rw [Nat.add_zero] at h0
      have hprev' : ∀ j, j < i → isAgentReply (hist (k + 1 + j)) agent = false := by
        intro j hj
        have := hprev (j + 1) (by omega)
        rwa [show k + (j + 1) = k + 1 + j by omega] at this
      have hsucc' : isAgentReply (hist (k + 1 + i)) agent = true := by
        rwa [show k + (i + 1) = k + 1 + i by omega] at hsucc
      obtain ⟨last, hlast, hw⟩ := ih (k + 1) i (by omega) hprev' hsucc'
      refine ⟨last, by rwa [show k + 1 + i = k + (i + 1) by omega] at hlast, ?_⟩
      unfold isAgentReply at h0
      cases hl : (hist k).getLast? with
      | none =>
        simp [wait_aux, hl, hw]
      | some l0 =>
        rw [hl] at h0
        have hne : ¬ l0.1 = agent := by simpa using h0
        simp [wait_aux, hl, hne, hw]

/-- If no poll within the fuel budget sees an agent-authored last message, the
wait loop times out with zero clearing reads after using all its polls. -/
theorem wait_aux_timeout (hist : Nat → List (String × String)) (agent : String) :
    ∀ (fuel k : Nat),
      (∀ j, j < fuel → isAgentReply (hist (k + j)) agent = false) →
      wait_aux hist agent k fuel = (.timedOut, 0, fuel) := by
  intro fuel
  induction fuel with
  | zero =>
    intro k _
    rfl
  | succ fuel ih =>
    intro k h
    have h0 := h 0 (by omega)
    rw [Nat.add_zero] at h0
    have hrec := ih (k + 1) (fun j hj => by
      have := h (j + 1) (by omega)
      rwa [show k + (j + 1) = k + 1 + j by omega] at this)
    unfold isAgentReply at h0
    cases hl : (hist k).getLast? with
    | none =>
      simp [wait_aux, hl, hrec]
    | some l0 =>
      rw [hl] at h0
      have hne : ¬ l0.1 = agent := by simpa using h0
      simp [wait_aux, hl, hne, hrec]

/-! ## Claims -/

/-- C7: `createOrGetSession` fails with a validation error when the supplied
participants list does not have length exactly 2 (the pydantic request model
requires `min_length = 2, max_length = 2`), and in that case the store is
unchanged — no session is created. -/
theorem create_session_validates_two_participants
    (st : Store) (participants : List Participant) (sessionId : Option String)
    (freshId : String) (h : participants.length ≠ 2) :
    api_create_session st participants sessionId freshId
      = (.error .validationError, st) := by
  simp [api_create_session, h]

/-- C7 witness: a one-participant request is rejected and creates nothing. -/
theorem create_session_validates_two_participants_witness :
    ([Participant.mk "Alice" false] : List Participant).length ≠ 2 ∧
      api_create_session [] [Participant.mk "Alice" false] none "u1"
        = (.error .validationError, []) :=
  ⟨by decide,
    create_session_validates_two_participants [] [Participant.mk "Alice" false]
      none "u1" (by decide)⟩

/-- C8: for an explicit session id absent from the store, the first
`createOrGetSession` call creates the session and returns the id with
`created = true`; the second call with the same id returns the same id with
`created = false` and leaves the whole store — hence the stored session's
participants, messages and unseen flag — exactly unchanged: no second session
is created. -/
theorem create_session_idempotent (st : Store) (ps : List Participant)
    (sid u1 u2 : String) (h : Store.find st sid = none) :
    svc_create_session st ps (some sid) u1
        = some ((sid, true), st ++ [(sid, ⟨ps, false, []⟩)]) ∧
      svc_create_session (st ++ [(sid, ⟨ps, false, []⟩)]) ps (some sid) u2
        = some ((sid, false), st ++ [(sid, ⟨ps, false, []⟩)]) := by
  have hex : session_exists st sid = false := by simp [session_exists, h]
  constructor
  · simp [svc_create_session, hex, repo_create_session]
  · have hfind : Store.find (st ++ [(sid, ⟨ps, false, []⟩)]) sid
        = some ⟨ps, false, []⟩ := by
      rw [find_append_of_none st _ sid h]
      simp [Store.find]
    have hex2 : session_exists (st ++ [(sid, ⟨ps, false, []⟩)]) sid = true := by
      simp [session_exists, hfind]
    simp [svc_create_session, hex2]

/-- C8 witness: creating session "s1" twice on an initially empty store. -/
theorem create_session_idempotent_witness :
    Store.find [] "s1" = none ∧
      svc_create_session [] [⟨"A", false⟩, ⟨"B", true⟩] (some "s1") "u1"
        = some (("s1", true), [("s1", ⟨[⟨"A", false⟩, ⟨"B", true⟩], false, []⟩)]) ∧
      svc_create_session [("s1", ⟨[⟨"A", false⟩, ⟨"B", true⟩], false, []⟩)]
          [⟨"A", false⟩, ⟨"B", true⟩] (some "s1") "u2"
        = some (("s1", false), [("s1", ⟨[⟨"A", false⟩, ⟨"B", true⟩], false, []⟩)]) := by
  have h := create_session_idempotent [] [⟨"A", false⟩, ⟨"B", true⟩] "s1" "u1" "u2" rfl
  exact ⟨rfl, by simpa using h.1, by simpa using h.2⟩

/-- C10: unseen-status queries are total and effect-free: `get_has_unseen`
returns `false` (rather than failing) for a session id missing from the store;
the poll endpoint returns `has_unseen = false` for an absent session id
parameter, for a blank id, and for a stripped id with no stored session.  Both
are pure reads — their result types carry no store, so they cannot mutate it,
and no `NotFound` outcome exists in their types. -/
theorem poll_missing_session_reports_false :
    (∀ st sid, Store.find st sid = none → get_has_unseen st sid = false) ∧
    (∀ st, api_poll none st = false) ∧
    (∀ st sid, pyStrip sid = "" → api_poll (some sid) st = false) ∧
    (∀ st sid, Store.find st (pyStrip sid) = none → api_poll (some sid) st = false) := by
  refine ⟨?_, ?_, ?_, ?_⟩
  · intro st sid h
    simp [get_has_unseen, h]
  · intro st
    rfl
  · intro st sid h
    simp [api_poll, h]
  · intro st sid h
    by_cases hb : pyStrip sid = ""
    · simp [api_poll, hb]
    · simp [api_poll, hb, svc_has_unseen, get_has_unseen, h]

/-- C10 witness: missing id "ghost", absent parameter, blank id, and a
whitespace-wrapped missing id all report `false`. -/
theorem poll_missing_session_reports_false_witness :
    Store.find [] "ghost" = none ∧ get_has_unseen [] "ghost" = false ∧
      api_poll none [] = false ∧
      pyStrip " " = "" ∧ api_poll (some " ") [] = false ∧
      api_poll (some " ghost ") [] = false := by
  have h := poll_missing_session_reports_false
  exact ⟨rfl, h.1 [] "ghost" rfl, h.2.1 [], by decide, h.2.2.1 [] " " (by decide),
    h.2.2.2 [] " ghost " rfl⟩

/-- C2: the unseen-flag protocol, executed sequentially.  After a successful
`appendMessage` the session's `hasUnseen` is `true`; after a successful
`getHistory` with `clearUnseen = true` it is `false`; `getHistory` with
`clearUnseen = false` leaves the store untouched; and session creation leaves
every already-stored session row — in particular its flag — unchanged.  The
remaining operations (`hasUnseen`, `findByParticipants`, `listUnseenIds`,
poll) are pure reads whose result types carry no store. -/
theorem unseen_flag_protocol :
    (∀ st sid u m st', send_message st sid u m = .ok st' →
      get_has_unseen st' sid = true) ∧
    (∀ st sid r st', get_history st sid true = .ok (r, st') →
      get_has_unseen st' sid = false) ∧
    (∀ st sid r st', get_history st sid false = .ok (r, st') → st' = st) ∧
    (∀ st ps osid fresh r st', svc_create_session st ps osid fresh = some (r, st') →
      ∀ sid s, Store.find st sid = some s → Store.find st' sid = some s) := by
  refine ⟨?_, ?_, ?_, ?_⟩
  · intro st sid u m st' h
    by_cases hex : session_exists st sid = true
    · obtain ⟨s, hs⟩ : ∃ s, Store.find st sid = some s := by
        simpa [session_exists, Option.isSome_iff_exists] using hex
      rw [send_message, append_message_found st sid u m s hs] at h
      simp only [if_true, Except.ok.injEq] at h
      rw [← h, get_has_unseen, find_setSession_self, find_setSession_self, hs]
      rfl
    · simp [send_message, append_message, hex] at h
  · intro st sid r st' h
    unfold get_history at h
    cases hp : get_participants st sid with
    | none => rw [hp] at h; exact absurd h (by simp)
    | some ps =>
      rw [hp] at h
      simp only [if_true, get_messages_and_clear_unseen, Except.ok.injEq,
        Prod.mk.injEq] at h
      rw [← h.2, get_has_unseen_clear]
  · intro st sid r st' h
    unfold get_history at h
    cases hp : get_participants st sid with
    | none => rw [hp] at h; exact absurd h (by simp)
    | some ps =>
      rw [hp] at h
      simp only [Bool.false_eq_true, if_false, Except.ok.injEq, Prod.mk.injEq] at h
      exact h.2.symm
  · intro st ps osid fresh r st' h sid s hs
    exact svc_create_preserves_rows st ps osid fresh r st' h sid s hs

/-- C2 witness: append "hi" to session "s", observe the flag set; read the
history with clearing, observe the flag cleared; a non-clearing read and a
fresh creation both leave the stored row alone. -/
theorem unseen_flag_protocol_witness :
    send_message [("s", ⟨[⟨"A", false⟩, ⟨"B", true⟩], false, []⟩)] "s" "A" "hi"
        = .ok [("s", ⟨[⟨"A", false⟩, ⟨"B", true⟩], true, [⟨"A", "hi", 1⟩]⟩)] ∧
      get_has_unseen [("s", ⟨[⟨"A", false⟩, ⟨"B", true⟩], true, [⟨"A", "hi", 1⟩]⟩)] "s"
        = true ∧
      get_history [("s", ⟨[⟨"A", false⟩, ⟨"B", true⟩], true, [⟨"A", "hi", 1⟩]⟩)] "s" true
        = .ok (([⟨"A", false⟩, ⟨"B", true⟩], [("A", "hi")]),
            [("s", ⟨[⟨"A", false⟩, ⟨"B", true⟩], false, [⟨"A", "hi", 1⟩]⟩)]) ∧
      get_has_unseen [("s", ⟨[⟨"A", false⟩, ⟨"B", true⟩], false, [⟨"A", "hi", 1⟩]⟩)] "s"
        = false := by
  refine ⟨rfl, ?_, rfl, ?_⟩
  · exact unseen_flag_protocol.1
      [("s", ⟨[⟨"A", false⟩, ⟨"B", true⟩], false, []⟩)] "s" "A" "hi"
      [("s", ⟨[⟨"A", false⟩, ⟨"B", true⟩], true, [⟨"A", "hi", 1⟩]⟩)] rfl
  · exact unseen_flag_protocol.2.1
      [("s", ⟨[⟨"A", false⟩, ⟨"B", true⟩], true, [⟨"A", "hi", 1⟩]⟩)] "s"
      ([⟨"A", false⟩, ⟨"B", true⟩], [("A", "hi")])
      [("s", ⟨[⟨"A", false⟩, ⟨"B", true⟩], false, [⟨"A", "hi", 1⟩]⟩)] rfl

/-- C3 counterexample: the claim asserts that an append landing after the
read's snapshot but before the clear completes leaves `unseen = true`.  In the
code the clear is a second, unconditional `UPDATE has_unseen = 0` statement:
with the concrete session "s", the interleaving (history snapshot taken;
`append_message` from "Bot" commits, setting the flag; `clear_has_unseen`
runs) ends with the flag `false`, not `true` — the racing append's
notification is lost.  (The snapshot read is pure, so it does not appear in
the state expression.) -/
theorem read_clear_race_counterexample :
    get_has_unseen
      (clear_has_unseen
        (append_message
          [("s", ⟨[⟨"Alice", false⟩, ⟨"Bot", true⟩], true, [⟨"Alice", "hi", 1⟩]⟩)]
          "s" "Bot" "yo").2 "s") "s" = false := by
  decide

/-- C3 (amended): `getHistory(clearUnseen = true)` is not atomic with its
read — `get_messages_and_clear_unseen` issues the message read and then an
unconditional `UPDATE has_unseen = 0` as separate statements on per-request
connections.  For every session and every append interleaved between the read
snapshot and the clear, the session ends with `unseen = false` once the clear
completes: the clear forces the flag false regardless of the newer write. -/
theorem read_clear_race_clears_unconditionally (st : Store) (sid u m : String) :
    get_has_unseen (clear_has_unseen (append_message st sid u m).2 sid) sid = false :=
  get_has_unseen_clear (append_message st sid u m).2 sid

/-- C5 counterexample: the claim says the history read that ticket dispatch
uses to decide whether the announcement was already sent leaves the unseen
flag unchanged.  Concretely: the task session for ticket "T1" holds its
announcement and has `unseen = true`; one further `dispatch_ticket` run ends
with the flag `false` — the read cleared it (`ServiceClient.
get_session_history` sends no `clear_unseen` parameter, so the server applies
its default `clear_unseen = true`). -/
theorem dispatch_read_clears_counterexample :
    get_has_unseen
        [("RoseHeartbeat-task-T1",
          ⟨[⟨"RoseHeartBeat", false⟩, ⟨"Bot", true⟩], true,
            [⟨"RoseHeartBeat", "Task (todo): Fix bug\n\nsee logs", 1⟩]⟩)]
        "RoseHeartbeat-task-T1" = true ∧
      get_has_unseen
        (dispatch_ticket ⟨"T1", "Bot", "todo", "Fix bug", "see logs"⟩
          [("RoseHeartbeat-task-T1",
            ⟨[⟨"RoseHeartBeat", false⟩, ⟨"Bot", true⟩], true,
              [⟨"RoseHeartBeat", "Task (todo): Fix bug\n\nsee logs", 1⟩]⟩)]
          "u1")
        "RoseHeartbeat-task-T1" = false := by
  exact ⟨rfl, by decide⟩

/-- C5 (amended): the history read used by ticket dispatch to decide whether
the announcement was already sent DOES clear the session's unseen flag —
after that read the flag is false — while every session's participants and
messages are unchanged by the read.  (The announcement-once decision itself is
unaffected, since it depends only on the messages.) -/
theorem dispatch_history_read_clears (st : Store) (sid : String) (s : Session)
    (h : Store.find st sid = some s) :
    get_has_unseen (client_get_session_history st sid).2 sid = false ∧
      (∀ sid', (Store.find (client_get_session_history st sid).2 sid').map Session.messages
        = (Store.find st sid').map Session.messages) ∧
      (∀ sid', (Store.find (client_get_session_history st sid).2 sid').map Session.participants
        = (Store.find st sid').map Session.participants) := by
  rw [client_history_on_found st sid s h]
  exact ⟨get_has_unseen_clear st sid,
    fun sid' => clear_preserves_messages st sid sid',
    fun sid' => clear_preserves_participants st sid sid'⟩

/-- C5 amended-claim witness: a concrete session with the flag set is left
with the flag cleared but its messages intact by the client's history read. -/
theorem dispatch_history_read_clears_witness :
    Store.find [("t", ⟨[⟨"A", false⟩, ⟨"B", true⟩], true, [⟨"A", "hello", 1⟩]⟩)] "t"
        = some ⟨[⟨"A", false⟩, ⟨"B", true⟩], true, [⟨"A", "hello", 1⟩]⟩ ∧
      get_has_unseen
        (client_get_session_history
          [("t", ⟨[⟨"A", false⟩, ⟨"B", true⟩], true, [⟨"A", "hello", 1⟩]⟩)] "t").2 "t"
        = false := by
  have h := dispatch_history_read_clears
    [("t", ⟨[⟨"A", false⟩, ⟨"B", true⟩], true, [⟨"A", "hello", 1⟩]⟩)] "t"
    ⟨[⟨"A", false⟩, ⟨"B", true⟩], true, [⟨"A", "hello", 1⟩]⟩ rfl
  exact ⟨rfl, h.1⟩

/-- C9: starting from a session with no messages, a sequence of successive
`appendMessage` calls assigns the ordinals 1, 2, 3, … in append order — the
resulting ordinal column is exactly `1..n` with no gaps or repeats, and the
stored (sender, content) pairs are the appended ones in order.  The numbering
is preserved by the other operations: a history read (clearing or not) leaves
every session's messages unchanged, and session creation leaves every
existing session row unchanged; no operation deletes messages. -/
theorem ordinals_one_to_n :
    (∀ st sid s ws, Store.find st sid = some s → s.messages = [] →
      ∃ s', Store.find (appendAll st sid ws) sid = some s' ∧
        s'.messages.map Message.ordinal = List.range' 1 ws.length ∧
        s'.messages.map (fun mm => (mm.user, mm.message)) = ws) ∧
    (∀ st sid c r st', get_history st sid c = .ok (r, st') →
      ∀ sid', (Store.find st' sid').map Session.messages
        = (Store.find st sid').map Session.messages) ∧
    (∀ st ps osid fresh r st', svc_create_session st ps osid fresh = some (r, st') →
      ∀ sid' s, Store.find st sid' = some s → Store.find st' sid' = some s) := by
  refine ⟨?_, ?_, ?_⟩
  · intro st sid s ws h hempty
    obtain ⟨s', h1, _, h3, h4, h5⟩ := appendAll_inv sid ws st s h (by rw [hempty]; rfl)
    rw [hempty] at h4 h5
    simp only [List.length_nil, Nat.zero_add, List.map_nil, List.nil_append] at h4 h5
    rw [h4] at h3
    exact ⟨s', h1, h3, h5⟩
  · intro st sid c r st' h sid'
    exact get_history_preserves_messages st sid c r st' h sid'
  · intro st ps osid fresh r st' h sid' s hs
    exact svc_create_preserves_rows st ps osid fresh r st' h sid' s hs

/-- C9 witness: three appends to an initially empty session "s" produce
ordinals 1, 2, 3 in append order. -/
theorem ordinals_one_to_n_witness :
    Store.find [("s", ⟨[⟨"A", false⟩, ⟨"B", true⟩], false, []⟩)] "s"
        = some ⟨[⟨"A", false⟩, ⟨"B", true⟩], false, []⟩ ∧
      ∃ s', Store.find
          (appendAll [("s", ⟨[⟨"A", false⟩, ⟨"B", true⟩], false, []⟩)] "s"
            [("A", "m1"), ("B", "m2"), ("A", "m3")]) "s" = some s' ∧
        s'.messages.map Message.ordinal = List.range' 1 3 ∧
        s'.messages.map (fun mm => (mm.user, mm.message))
          = [("A", "m1"), ("B", "m2"), ("A", "m3")] := by
  refine ⟨rfl, ?_⟩
  have h := ordinals_one_to_n.1
    [("s", ⟨[⟨"A", false⟩, ⟨"B", true⟩], false, []⟩)] "s"
    ⟨[⟨"A", false⟩, ⟨"B", true⟩], false, []⟩
    [("A", "m1"), ("B", "m2"), ("A", "m3")] rfl rfl
  simpa using h

/-- C4: responder selection in the chat-update step, for a session with
non-empty history.  With exactly two agent participants the selected
responder is an agent whose name differs from the last message's sender: when
exactly one of the two differs, it is that one, and no responder is selected
(the step does nothing) when both agent names equal the last sender; whatever
is selected never equals the last sender.  With exactly one agent participant
that agent is always selected, even when it sent the last message itself. -/
theorem responder_selection :
    (∀ (ps : List Participant) (msgs : List (String × String))
        (a b : Participant) (l : String × String),
      ps.filter (fun p => p.isAgent) = [a, b] → msgs.getLast? = some l →
      ((a.name = l.1 → b.name = l.1 → select_responder ps msgs = none) ∧
       (a.name ≠ l.1 → select_responder ps msgs = some a.name) ∧
       (a.name = l.1 → b.name ≠ l.1 → select_responder ps msgs = some b.name) ∧
       (∀ r, select_responder ps msgs = some r → r ≠ l.1))) ∧
    (∀ (ps : List Participant) (msgs : List (String × String))
        (a : Participant) (l : String × String),
      ps.filter (fun p => p.isAgent) = [a] → msgs.getLast? = some l →
      select_responder ps msgs = some a.name) := by
  constructor
  · intro ps msgs a b l hf hl
    refine ⟨?_, ?_, ?_, ?_⟩
    · intro ha hb
      simp [select_responder, hf, hl, List.find?, ha, hb]
    · intro ha
      simp [select_responder, hf, hl, List.find?, ha]
    · intro ha hb
      have hb' : (b.name != l.1) = true := bne_iff_ne.mpr hb
      simp [select_responder, hf, hl, List.find?, ha, hb']
    · intro r hr
      by_cases ha : a.name = l.1
      · by_cases hb : b.name = l.1
        · simp [select_responder, hf, hl, List.find?, ha, hb] at hr
        · have hb' : (b.name != l.1) = true := bne_iff_ne.mpr hb
          simp [select_responder, hf, hl, List.find?, ha, hb'] at hr
          rw [← hr]
          exact hb
      · have ha' : (a.name != l.1) = true := bne_iff_ne.mpr ha
        simp [select_responder, hf, hl, List.find?, ha'] at hr
        rw [← hr]
        exact ha
  · intro ps msgs a l hf hl
    simp [select_responder, hf, hl]

/-- C4 witness: in the two-agent session BotA/BotB with last sender "BotA" the
responder is "BotB"; with both agent names equal to the last sender nothing is
selected; the lone agent "Bot" answers even its own last message. -/
theorem responder_selection_witness :
    select_responder [⟨"BotA", true⟩, ⟨"BotB", true⟩] [("BotA", "hi")]
        = some "BotB" ∧
      select_responder [⟨"BotA", true⟩, ⟨"BotA", true⟩] [("BotA", "hi")] = none ∧
      select_responder [⟨"Alice", false⟩, ⟨"Bot", true⟩] [("Bot", "yo")]
        = some "Bot" := by
  have h2 := (responder_selection.1 [⟨"BotA", true⟩, ⟨"BotB", true⟩] [("BotA", "hi")]
    ⟨"BotA", true⟩ ⟨"BotB", true⟩ ("BotA", "hi") rfl rfl).2.2.1 rfl (by decide)
  have h0 := (responder_selection.1 [⟨"BotA", true⟩, ⟨"BotA", true⟩] [("BotA", "hi")]
    ⟨"BotA", true⟩ ⟨"BotA", true⟩ ("BotA", "hi") rfl rfl).1 rfl rfl
  have h1 := responder_selection.2 [⟨"Alice", false⟩, ⟨"Bot", true⟩] [("Bot", "yo")]
    ⟨"Bot", true⟩ ("Bot", "yo") rfl rfl
  exact ⟨h2, h0, h1⟩

/-- C6: the relay's bounded wait.  Poll `k` is the non-clearing
`getHistory(clearUnseen = false)` read performed at elapsed time `2k` seconds
(`HISTORY_POLL_INTERVAL_SECONDS = 2`); the loop guard `elapsed < 300`
(`HISTORY_POLL_TIMEOUT_SECONDS`) allows exactly 300 / 2 = 150 polls.  If the
first poll whose non-empty history ends with a message from the agent is poll
`i` (within the ceiling), the relay performs exactly one additional read with
`clearUnseen = true` and delivers that last message's content, after `i + 1`
polls.  If no poll within the ceiling succeeds, the relay delivers the timeout
notice (the `timedOut` outcome) after all 150 polls with zero clearing reads —
it never clears the unseen flag for that event. -/
theorem relay_wait_contract :
    (∀ (hist : Nat → List (String × String)) (agent : String) (i : Nat),
      i < HISTORY_POLL_TIMEOUT_SECONDS / HISTORY_POLL_INTERVAL_SECONDS →
      (∀ j, j < i → isAgentReply (hist j) agent = false) →
      isAgentReply (hist i) agent = true →
      ∃ last, (hist i).getLast? = some last ∧
        wait_for_agent_reply hist agent = (.delivered last.2, 1, i + 1)) ∧
    (∀ (hist : Nat → List (String × String)) (agent : String),
      (∀ j, j < HISTORY_POLL_TIMEOUT_SECONDS / HISTORY_POLL_INTERVAL_SECONDS →
        isAgentReply (hist j) agent = false) →
      wait_for_agent_reply hist agent
        = (.timedOut, 0,
            HISTORY_POLL_TIMEOUT_SECONDS / HISTORY_POLL_INTERVAL_SECONDS)) := by
  constructor
  · intro hist agent i hi hprev hsucc
    have h := wait_aux_delivered hist agent
      (HISTORY_POLL_TIMEOUT_SECONDS / HISTORY_POLL_INTERVAL_SECONDS) 0 i hi
      (fun j hj => by simpa using hprev j hj) (by simpa using hsucc)
    simpa [wait_for_agent_reply] using h
  · intro hist agent h
    have ht := wait_aux_timeout hist agent
      (HISTORY_POLL_TIMEOUT_SECONDS / HISTORY_POLL_INTERVAL_SECONDS) 0
      (fun j hj => by simpa using h j hj)
    simpa [wait_for_agent_reply] using ht

/-- C6 witness: with the agent reply visible from poll 1, the wait delivers
"ok" after two polls with one clearing read; with no reply ever, it times out
after 150 polls with zero clearing reads. -/
theorem relay_wait_contract_witness :
    (1 < HISTORY_POLL_TIMEOUT_SECONDS / HISTORY_POLL_INTERVAL_SECONDS) ∧
      wait_for_agent_reply (fun k => if k = 1 then [("bot", "ok")] else []) "bot"
        = (.delivered "ok", 1, 2) ∧
      wait_for_agent_reply (fun _ => []) "bot"
        = (.timedOut, 0,
            HISTORY_POLL_TIMEOUT_SECONDS / HISTORY_POLL_INTERVAL_SECONDS) := by
  refine ⟨by decide, ?_, ?_⟩
  · obtain ⟨last, hl, hw⟩ := relay_wait_contract.1
      (fun k => if k = 1 then [("bot", "ok")] else []) "bot" 1
      (by decide) (by decide) (by decide)
    rw [show ((fun k => if k = 1 then [("bot", "ok")] else []) 1).getLast?
        = some (("bot", "ok")) from rfl] at hl
    rw [(Option.some.inj hl).symm] at hw
    exact hw
  · exact relay_wait_contract.2 (fun _ => []) "bot" (fun j hj => rfl)

/-- C1: ticket dispatch announces exactly once.  The task session id is a
deterministic function of the ticket id (`task_session_id`); the announcement
— composed from the ticket's status, title and instructions
(`announcement_body`) and sent by the dispatcher `HEARTBEAT_USER` — is
appended only when the session's history is empty; and running
`dispatch_ticket` any number of times on the same ticket (whose assignee is
non-blank, starting with no task session) leaves the session with exactly the
one announcement message.  The last conjunct is the only-when-empty frame: a
dispatch against a session that already has messages changes neither its
participants nor its messages. -/
theorem ticket_dispatch_announce_once (t : Ticket) (st : Store) (u : String)
    (hass : ¬ pyStrip t.assignee = "")
    (habsent : Store.find st (task_session_id t.id) = none) :
    (∀ t' : Ticket, t'.id = t.id → task_session_id t'.id = task_session_id t.id) ∧
    (∀ n : Nat, ∃ unseen,
      Store.find ((fun s => dispatch_ticket t s u)^[n + 1] st) (task_session_id t.id)
        = some ⟨heartbeat_participants (pyStrip t.assignee), unseen,
            [⟨HEARTBEAT_USER, announcement_body t, 1⟩]⟩) ∧
    (∀ (st' : Store) (s' : Session),
      Store.find st' (task_session_id t.id) = some s' → s'.messages ≠ [] →
      Store.find (dispatch_ticket t st' u) (task_session_id t.id)
        = some ⟨s'.participants, false, s'.messages⟩) := by
  refine ⟨fun t' h => by rw [h], ?_, ?_⟩
  · intro n
    induction n with
    | zero =>
      refine ⟨true, ?_⟩
      rw [Function.iterate_one]
      exact dispatch_first t st u hass habsent
    | succ n ih =>
      obtain ⟨unseen, hfind⟩ := ih
      refine ⟨false, ?_⟩
      rw [Function.iterate_succ_apply']
      exact dispatch_nonempty t _ u _ hass hfind (by simp)
  · intro st' s' h hne
    exact dispatch_nonempty t st' u s' hass h hne

/-- C1 witness: ticket "T1" dispatched twice against an empty store leaves the
task session with exactly the one announcement message. -/
theorem ticket_dispatch_announce_once_witness :
    ¬ pyStrip "Bot" = "" ∧
      Store.find ([] : Store) (task_session_id "T1") = none ∧
      ∃ unseen,
        Store.find
          ((fun s =>
            dispatch_ticket ⟨"T1", "Bot", "todo", "Fix bug", "see logs"⟩ s "u1")^[2]
            ([] : Store))
          (task_session_id "T1")
          = some ⟨heartbeat_participants (pyStrip "Bot"), unseen,
              [⟨HEARTBEAT_USER,
                announcement_body ⟨"T1", "Bot", "todo", "Fix bug", "see logs"⟩, 1⟩]⟩ := by
  refine ⟨by decide, rfl, ?_⟩
  exact (ticket_dispatch_announce_once ⟨"T1", "Bot", "todo", "Fix bug", "see logs"⟩
    [] "u1" (by decide) rfl).2.1 1

end Rose
